import Mathlib

/-!
Verification development for the `changellypy` client library
(`changellypy/__init__.py`). The Python code is shallowly embedded:

* JSON values are the inductive `JsonValue`; Python floats are idealized
  as exact rationals (`ℚ`).
* The remote Changelly service is an `Oracle`: a record of pure response
  functions, one per JSON-RPC method the client uses.
* Per-instance mutable state (`currency_list`) and the sequence of
  dispatched requests are threaded explicitly through a `ClientState`;
  every `_request` dispatch is recorded in `ClientState.trace`.
* Python exceptions (`ValueError`, `TypeError`, `IndexError`, `KeyError`)
  become the `PyError` type, and fallible operations return `Except`.
* The HMAC-SHA512 of the standard library is external code; the signing
  layer (`signedRequest`) is therefore parameterized by the hash function
  `H : String → String → String` standing for
  `fun secret data => hmac.new(secret, data, sha512).hexdigest()`.
-/

/-- JSON values. Numbers are idealized as exact rationals (Python uses
IEEE-754 doubles; none of the verified properties depend on binary
rounding of the transport values). -/
inductive JsonValue : Type where
  | null : JsonValue
  | bool : Bool → JsonValue
  | num : ℚ → JsonValue
  | str : String → JsonValue
  | arr : List JsonValue → JsonValue
  | obj : List (String × JsonValue) → JsonValue

/-- Association-list lookup, first match: Python `d[k]` / `d.get(k)` on a
dict whose insertion order is the list order. -/
def jsonLookup (kvs : List (String × JsonValue)) (k : String) : Option JsonValue :=
  (kvs.find? (fun kv => kv.1 = k)).map (fun kv => kv.2)

/-- Python dict item assignment `d[k] = v`: replaces the value in place if
the key exists, appends otherwise (insertion order preserved). -/
def setItem {α : Type} (kvs : List (String × α)) (k : String) (v : α) :
    List (String × α) :=
  if kvs.any (fun kv => kv.1 = k) then
    kvs.map (fun kv => if kv.1 = k then (k, v) else kv)
  else kvs ++ [(k, v)]

/-- Escaping of `json.dumps` for the characters that occur in this
client's payloads (quote and backslash). -/
def jsonEscapeChar (c : Char) : String :=
  if c = '\"' then "\\\"" else if c = '\\' then "\\\\" else String.singleton c

def jsonEscape (s : String) : String :=
  String.join (s.toList.map jsonEscapeChar)

/-- Textual rendering of a JSON number. Integers render as Python ints do
(the envelope's `id: 1`); non-integral rationals use the `ℚ` rendering,
an injective idealization of Python's float repr. -/
def dumpNum (q : ℚ) : String :=
  if q.den = 1 then toString q.num else toString q

mutual

/-- Models Python `json.dumps` with its default separators `", "` and
`": "` and insertion-ordered dict keys, as used by `_request`. -/
def jsonDumps : JsonValue → String
  | .null => "null"
  | .bool true => "true"
  | .bool false => "false"
  | .num q => dumpNum q
  | .str s => "\"" ++ jsonEscape s ++ "\""
  | .arr xs => "[" ++ jsonDumpsElems xs ++ "]"
  | .obj kvs => "\x7b" ++ jsonDumpsMembers kvs ++ "\x7d"

def jsonDumpsElems : List JsonValue → String
  | [] => ""
  | [x] => jsonDumps x
  | x :: y :: xs => jsonDumps x ++ ", " ++ jsonDumpsElems (y :: xs)

def jsonDumpsMembers : List (String × JsonValue) → String
  | [] => ""
  | [(k, v)] => "\"" ++ jsonEscape k ++ "\": " ++ jsonDumps v
  | (k, v) :: kv :: kvs =>
      "\"" ++ jsonEscape k ++ "\": " ++ jsonDumps v ++ ", " ++
        jsonDumpsMembers (kv :: kvs)

end

/-- Python `str.lower()` (ASCII case mapping, which is all the client's
currency codes use), defined structurally over the character list so that
it reduces in the kernel. -/
def pyLower (s : String) : String :=
  ⟨s.data.map Char.toLower⟩

/-- Python `str.upper()` (ASCII case mapping). -/
def pyUpper (s : String) : String :=
  ⟨s.data.map Char.toUpper⟩

/-- The whitespace stripping `float(string)` performs before parsing. -/
def pyStrip (l : List Char) : List Char :=
  ((l.dropWhile Char.isWhitespace).reverse.dropWhile Char.isWhitespace).reverse

/-- Python exceptions raised locally by the client. -/
inductive PyError : Type where
  | valueError (msg : String)
  | typeError (msg : String)
  | indexError (msg : String)
  | keyError (msg : String)
  deriving DecidableEq, Repr

/-- Python `len(...)`: defined on sized values, raises `TypeError` on
`None`, booleans and numbers. -/
def pyLen : JsonValue → Except PyError Nat
  | .str s => .ok s.length
  | .arr xs => .ok xs.length
  | .obj kvs => .ok kvs.length
  | .null => .error (.typeError "object of type NoneType has no len()")
  | .bool _ => .error (.typeError "object of type bool has no len()")
  | .num _ => .error (.typeError "object of type float has no len()")

def digitsToNat (ds : List Char) : Nat :=
  ds.foldl (fun a c => a * 10 + (c.toNat - 48)) 0

/-- The decimal fragment of Python `float(string)`: optional sign, digits
with an optional decimal point (at least one digit overall), idealized to
an exact rational. -/
def pyFloatCore (cs : List Char) : Option ℚ :=
  let signed : Bool × List Char :=
    match cs with
    | '+' :: r => (false, r)
    | '-' :: r => (true, r)
    | r => (false, r)
  let intPart := signed.2.takeWhile Char.isDigit
  let rest := signed.2.dropWhile Char.isDigit
  let mag : Option ℚ :=
    match rest with
    | [] => if intPart.isEmpty then none else some (digitsToNat intPart : ℚ)
    | '.' :: frac =>
        if frac.all Char.isDigit ∧ ¬(intPart.isEmpty ∧ frac.isEmpty) then
          some ((digitsToNat intPart : ℚ) +
            (digitsToNat frac : ℚ) / (10 : ℚ) ^ frac.length)
        else none
    | _ => none
  mag.map (fun q => if signed.1 then -q else q)

/-- Python `float(s)` on a string (whitespace-trimmed), as an `Except`. -/
def pyFloatStr (s : String) : Except PyError ℚ :=
  match pyFloatCore (pyStrip s.data) with
  | some q => .ok q
  | none => .error (.valueError ("could not convert string to float: " ++ s))

/-- Python `float(x)` on a decoded JSON value. -/
def pyFloatOfJson : JsonValue → Except PyError ℚ
  | .num q => .ok q
  | .str s => pyFloatStr s
  | .bool b => .ok (if b then 1 else 0)
  | .null => .error (.typeError "float() argument must be a string or a real number, not NoneType")
  | .arr _ => .error (.typeError "float() argument must be a string or a real number, not list")
  | .obj _ => .error (.typeError "float() argument must be a string or a real number, not dict")

/-- Round a rational to the nearest integer, ties to even: the rounding of
Python's `round` (and of `%.8f` formatting) on the idealized values. -/
def roundHalfEven (q : ℚ) : ℤ :=
  let f : ℤ := ⌊q⌋
  let r : ℚ := q - (f : ℚ)
  if r < 1/2 then f
  else if 1/2 < r then f + 1
  else if f % 2 = 0 then f else f + 1

/-- Python `round(x, 8)` on the idealized values. -/
def round8 (q : ℚ) : ℚ :=
  (roundHalfEven (q * 100000000) : ℚ) / 100000000

/-- Python `'{:.8f}'.format(x)`: fixed-point rendering with exactly 8
fractional digits. -/
def formatFixed8 (q : ℚ) : String :=
  let n : ℤ := roundHalfEven (q * 100000000)
  let sgn := if n < 0 then "-" else ""
  let m := n.natAbs
  let fpStr := toString (m % 100000000)
  sgn ++ toString (m / 100000000) ++ "." ++
    String.mk (List.replicate (8 - fpStr.length) '0') ++ fpStr

/-- The message of the below-minimum `ValueError`:
`'Min. mount is amount {:.8f} {}.'.format(min_amount, f.upper())`
(the source's typo `mount` is preserved). -/
def minMsg (m : ℚ) (f : String) : String :=
  "Min. mount is amount " ++ formatFixed8 m ++ " " ++ pyUpper f ++ "."

def invalidCurrencyMsg : String := "Invalid currency error."

def shapeMsg : String := "\"From\" and \"To\" lists do not have the same size."

/-! ## The request/signing layer (`_request`, lines 46–68)

`_request` serializes the JSON-RPC envelope once, signs those exact bytes
and posts them unchanged. `signedRequest` captures what leaves the client:
the `api-key` and `sign` header values and the request body. The HMAC
itself lives in the Python standard library, outside this repository, so
it appears as the explicit function parameter `H`. -/

/-- The JSON-RPC envelope built by `_request`:
`{'jsonrpc': '2.0', 'id': 1, 'method': command, 'params': params if params is not None else []}`. -/
def envelope (command : String) (params : Option JsonValue) : JsonValue :=
  .obj [("jsonrpc", .str "2.0"), ("id", .num 1), ("method", .str command),
        ("params", params.getD (.arr []))]

/-- `data = json.dumps({...})`: the serialized request bytes. -/
def serializeRequest (command : String) (params : Option JsonValue) : String :=
  jsonDumps (envelope command params)

/-- What one `_request` call hands to the HTTP layer: the two credential
headers and the body, `req.post(API_URL, headers=self._headers, data=data)`. -/
structure SentRequest where
  apiKey : String
  sign : String
  body : String

/-- The outbound request of `_request(command, params)` for a client
holding `secret`/`key`, with `H` standing for
`fun secret data => hmac.new(secret, data, sha512).hexdigest()`.
The serialized `data` is computed once and used both as the signature
input and as the posted body. -/
def signedRequest (H : String → String → String) (secret key : String)
    (command : String) (params : Option JsonValue) : SentRequest :=
  let data := serializeRequest command params
  { apiKey := key, sign := H secret data, body := data }

/-! ## The domain-method layer

For the domain methods the remote service is abstracted into an `Oracle`
of pure response functions (the spec's external HTTP collaborator, assumed
to answer each method with a decoded JSON `result`; `getCurrencies` is
assumed to answer with its list of currency-code strings). Every dispatch
is appended to `ClientState.trace`, so "no network call is made" is
"the trace did not grow". -/

/-- The remote service's responses, one field per JSON-RPC method used.
`minAmount` maps the two lower-cased codes to the raw result string that
`get_min_amount` feeds to `float(...)` (the wire carries decimal strings,
e.g. `"0.001"`). -/
structure Oracle where
  currencies : List String
  minAmount : String → String → String
  exchangeResult : JsonValue → JsonValue
  createResult : JsonValue → JsonValue

/-- One client instance's mutable state: the lazily populated
`currency_list` cache plus the log of dispatched requests. -/
structure ClientState where
  currency_list : List String
  trace : List (String × JsonValue)

/-- Record one `_request(command, params)` dispatch. -/
def logReq (s : ClientState) (command : String) (params : JsonValue) :
    ClientState :=
  { s with trace := s.trace ++ [(command, params)] }

/-- The requests a run starting from `s` added beyond `s.trace`. -/
def newReqs (s s' : ClientState) : List (String × JsonValue) :=
  s'.trace.drop s.trace.length

/-- The list `get_currencies` returns from state `s` (the cache when
non-empty, else the remote list). -/
def effCurrencies (o : Oracle) (s : ClientState) : List String :=
  if s.currency_list.length = 0 then o.currencies else s.currency_list

/-- `get_currencies` (lines 70–78): dispatch `getCurrencies` and cache the
result only when the cache is empty. `_request('getCurrencies')` carries
`params=None`, which the envelope turns into `[]`. -/
def get_currencies (o : Oracle) (s : ClientState) :
    List String × ClientState :=
  if s.currency_list.length = 0 then
    let s' := logReq s "getCurrencies" (.arr [])
    (o.currencies, { s' with currency_list := o.currencies })
  else (s.currency_list, s)

/-- `get_min_amount` (lines 80–97): lower-case both codes, check both
against `get_currencies()` (the Python `and` short-circuits, so the second
`get_currencies()` call only happens when the first test passed), then
dispatch `getMinAmount` and return `round(float(result), 8)`; otherwise
raise `ValueError('Invalid currency error.')`. -/
def get_min_amount (o : Oracle) (s : ClientState)
    (from_currency to_currency : String) :
    Except PyError ℚ × ClientState :=
  let f := pyLower from_currency
  let t := pyLower to_currency
  let r1 := get_currencies o s
  if f ∈ r1.1 then
    let r2 := get_currencies o r1.2
    if t ∈ r2.1 then
      let params : JsonValue := .obj [("from", .str f), ("to", .str t)]
      let s3 := logReq r2.2 "getMinAmount" params
      match pyFloatStr (o.minAmount f t) with
      | .ok q => (.ok (round8 q), s3)
      | .error e => (.error e, s3)
    else (.error (.valueError invalidCurrencyMsg), r2.2)
  else (.error (.valueError invalidCurrencyMsg), r1.2)

/-- A `from`/`to` argument of `get_exchange_amount`: a bare string or a
list of strings. -/
inductive StrOrList : Type where
  | str : String → StrOrList
  | list : List String → StrOrList

/-- The normalization at the top of `get_exchange_amount` (lines 108–114):
wrap a bare string into a one-element list, then lower-case every
element. -/
def normalizeArg : StrOrList → List String
  | .str s => [pyLower s]
  | .list xs => xs.map pyLower

/-- The validation loop of `get_exchange_amount` (lines 118–124):
`for f, t in zip(from_currency, to_currency)`. The tuple in
`all((f in self.get_currencies(), t in self.get_currencies()))` is built
eagerly, so both `get_currencies()` calls happen; on success
`get_min_amount(f, t)` is consulted and `amount < min_amount` raises the
below-minimum `ValueError`. -/
def validatePairs (o : Oracle) (amount : ℚ) :
    List (String × String) → ClientState → Except PyError Unit × ClientState
  | [], s => (.ok (), s)
  | (f, t) :: rest, s =>
    let r1 := get_currencies o s
    let r2 := get_currencies o r1.2
    if f ∈ r1.1 ∧ t ∈ r2.1 then
      match get_min_amount o r2.2 f t with
      | (.ok m, s3) =>
        if amount < m then (.error (.valueError (minMsg m f)), s3)
        else validatePairs o amount rest s3
      | (.error e, s3) => (.error e, s3)
    else (.error (.valueError invalidCurrencyMsg), r2.2)

/-- The in-place rounding pass over a list-shaped `getExchangeAmount`
result (lines 144–146): `result[idx]['amount'] = round(float(result[idx]['amount']), 8)`
for each record. A non-dict element raises `TypeError`, a dict without
the key raises `KeyError`. -/
def processRecords : List JsonValue → Except PyError (List JsonValue)
  | [] => .ok []
  | .obj kvs :: rest =>
    match jsonLookup kvs "amount" with
    | some v =>
      match pyFloatOfJson v with
      | .ok q =>
        match processRecords rest with
        | .ok rs => .ok (.obj (setItem kvs "amount" (.num (round8 q))) :: rs)
        | .error e => .error e
      | .error e => .error e
    | none => .error (.keyError "amount")
  | _ :: _ => .error (.typeError "element is not subscriptable by string key")

/-- The `getExchangeAmount` params built at lines 131–137: one
`{from, to, amount}` map when the (equal-sized) lists have one element
(`from_currency[0]` is the `headD` of a known-singleton list), else the
list of per-pair maps. -/
def exchangeParams (fs ts : List String) (amount : ℚ) : JsonValue :=
  if fs.length = 1 then
    .obj [("from", .str (fs.headD "")), ("to", .str (ts.headD "")),
          ("amount", .num amount)]
  else
    .arr ((fs.zip ts).map fun ft =>
      .obj [("from", .str ft.1), ("to", .str ft.2), ("amount", .num amount)])

/-- `get_exchange_amount` (lines 99–146), end to end: normalize the two
currency arguments, coerce `amount` through `float(str(amount))` (the
identity on the idealized values), run the validation loop over
`zip(from, to)`, only then compare the two lengths, build scalar or batch
params, dispatch `getExchangeAmount`, take `len(result)` and finally
branch on whether the result is a string. -/
def get_exchange_amount (o : Oracle) (s : ClientState)
    (from_c to_c : StrOrList) (amount : ℚ) :
    Except PyError JsonValue × ClientState :=
  let fs := normalizeArg from_c
  let ts := normalizeArg to_c
  match validatePairs o amount (fs.zip ts) s with
  | (.error e, s1) => (.error e, s1)
  | (.ok _, s1) =>
    if fs.length ≠ ts.length then
      (.error (.indexError shapeMsg), s1)
    else
      let params := exchangeParams fs ts amount
      let result := o.exchangeResult params
      let s2 := logReq s1 "getExchangeAmount" params
      match pyLen result with
      | .error e => (.error e, s2)
      | .ok _ =>
        match result with
        | .str str =>
          match pyFloatStr str with
          | .ok q => (.ok (.num (round8 q)), s2)
          | .error e => (.error e, s2)
        | .arr xs =>
          match processRecords xs with
          | .ok rs => (.ok (.arr rs), s2)
          | .error e => (.error e, s2)
        | .obj kvs =>
          if kvs.length = 0 then (.ok (.obj kvs), s2)
          else (.error (.keyError "0"), s2)
        | _ =>
          (.error (.typeError "result is not subscriptable"), s2)

/-- `create_transaction` (lines 148–195). `extra_id=None` becomes the
string `'null'`. The guards
`all((refund_address is not None, isinstance(refund_address, str), len(refund_address) > 0))`
build their tuple eagerly, so `len(refund_address)` is evaluated even when
`refund_address is None`, raising `TypeError` before any dispatch; the
key is appended only for a non-empty string. -/
def create_transaction (o : Oracle) (s : ClientState)
    (from_currency to_currency destination_address : String) (amount : ℚ)
    (extra_id refund_address refund_extra_id : Option String) :
    Except PyError JsonValue × ClientState :=
  let extraId := extra_id.getD "null"
  let params0 : List (String × JsonValue) :=
    [("from", .str from_currency), ("to", .str to_currency),
     ("address", .str destination_address), ("extraId", .str extraId),
     ("amount", .num amount)]
  match refund_address with
  | none => (.error (.typeError "object of type NoneType has no len()"), s)
  | some ra =>
    let params1 := if ra.length > 0 then params0 ++ [("refundAddress", .str ra)]
                   else params0
    match refund_extra_id with
    | none => (.error (.typeError "object of type NoneType has no len()"), s)
    | some rei =>
      let params2 := if rei.length > 0 then params1 ++ [("refundExtraId", .str rei)]
                     else params1
      (.ok (o.createResult (.obj params2)), logReq s "createTransaction" (.obj params2))

/-! ## Class-attribute layer (class body lines 24–44)

`_headers` and `currency_list` are declared in the class body, so all
instances initially share one dict and one list object. `__init__` runs
`self._headers['api-key'] = key`: attribute lookup finds the class-level
dict and the item assignment mutates that shared object. By contrast
`get_currencies` runs `self.currency_list = ...`, an attribute assignment
that creates a per-instance attribute shadowing the class one. -/

/-- The class-level attributes of `ChangellyPy`, shared by every
instance. -/
structure ClassAttrs where
  headers : List (String × String)
  class_currency_list : List String

/-- The class body's initial values:
`_headers = {'api-key': str(), 'sign': str(), 'Content-type': 'application/json'}`
and `currency_list = list()`. -/
def initialClassAttrs : ClassAttrs :=
  { headers := [("api-key", ""), ("sign", ""), ("Content-type", "application/json")],
    class_currency_list := [] }

/-- One `ChangellyPy` instance's own attributes: the encoded secret, and
`currency_list` once (and only once) an attribute assignment has shadowed
the class attribute. -/
structure PyInstance where
  secret : String
  inst_currency_list : Option (List String)

/-- `ChangellyPy.__init__(key, secret)`: stores the secret on the
instance and performs the item assignment `self._headers['api-key'] = key`
on the class-level dict. -/
def ChangellyPy_init (ca : ClassAttrs) (key secret : String) :
    PyInstance × ClassAttrs :=
  ({ secret := secret, inst_currency_list := none },
   { ca with headers := setItem ca.headers "api-key" key })

/-- The `api-key` header `self._headers['api-key']` an instance would send:
`_headers` is never shadowed, so the lookup always reaches the class
dict. -/
def apiKeyOf (ca : ClassAttrs) (_inst : PyInstance) : Option String :=
  (ca.headers.find? (fun kv => kv.1 = "api-key")).map (fun kv => kv.2)

/-- Attribute lookup `self.currency_list`: the instance attribute when one
has been assigned, the class attribute otherwise. -/
def currencyListOf (ca : ClassAttrs) (inst : PyInstance) : List String :=
  inst.inst_currency_list.getD ca.class_currency_list

/-- The attribute assignment `self.currency_list = result` performed by
`get_currencies` when it populates the cache. -/
def populateCache (inst : PyInstance) (cs : List String) : PyInstance :=
  { inst with inst_currency_list := some cs }

/-! ## Concrete fixtures used by witnesses and counterexamples -/

/-- A small remote service: three currencies, every pair's minimum is the
wire string `"0.001"`, `getExchangeAmount` answers with the scalar string
`"0.5"`. -/
def demoOracle : Oracle :=
  { currencies := ["btc", "eth", "ltc"],
    minAmount := fun _ _ => "0.001",
    exchangeResult := fun _ => .str "0.5",
    createResult := fun _ => .str "tx-id-1" }

/-- Same service, but `getExchangeAmount` answers with a JSON `null`
(`result` field absent from the response body). -/
def demoOracleNull : Oracle :=
  { demoOracle with exchangeResult := fun _ => .null }

/-- Same service, but `getExchangeAmount` answers with a bare number. -/
def demoOracleNum : Oracle :=
  { demoOracle with exchangeResult := fun _ => .num (1/2) }

/-- A freshly constructed client: empty cache, nothing dispatched yet. -/
def emptyState : ClientState := { currency_list := [], trace := [] }

/-! ## Helper lemmas -/

theorem char_toLower_idem (c : Char) : c.toLower.toLower = c.toLower := by
  unfold Char.toLower
  by_cases h : c.toNat ≥ 65 ∧ c.toNat ≤ 90
  · rw [if_pos h]
    have hv : (c.toNat + 32).isValidChar := Or.inl (by omega)
    have ht : (Char.ofNat (c.toNat + 32)).toNat = c.toNat + 32 := by
      rw [Char.ofNat, dif_pos hv]
      simp [Char.toNat, Char.ofNatAux, UInt32.toNat, BitVec.toNat_ofNatLt]
    rw [if_neg (by omega)]
  · rw [if_neg h, if_neg h]

theorem pyLower_idem (s : String) : pyLower (pyLower s) = pyLower s := by
  have key : ∀ (l : List Char),
      (l.map Char.toLower).map Char.toLower = l.map Char.toLower := by
    intro l
    induction l with
    | nil => rfl
    | cons c cs ih => simp [char_toLower_idem, ih]
  show (⟨(s.data.map Char.toLower).map Char.toLower⟩ : String) = ⟨s.data.map Char.toLower⟩
  rw [key]

/-- Every element a normalized currency argument produces is already
lower-case. -/
theorem normalizeArg_lower (sl : StrOrList) :
    ∀ x ∈ normalizeArg sl, pyLower x = x := by
  cases sl with
  | str s => intro x hx; simp [normalizeArg] at hx; subst hx; exact pyLower_idem s
  | list xs =>
    intro x hx
    simp [normalizeArg] at hx
    obtain ⟨y, _, rfl⟩ := hx
    exact pyLower_idem y

theorem get_currencies_fst (o : Oracle) (s : ClientState) :
    (get_currencies o s).1 = effCurrencies o s := by
  unfold get_currencies effCurrencies
  split <;> rfl

theorem get_currencies_clist (o : Oracle) (s : ClientState) :
    (get_currencies o s).2.currency_list = effCurrencies o s := by
  unfold get_currencies effCurrencies logReq
  split <;> rfl

theorem get_currencies_trace (o : Oracle) (s : ClientState) :
    (get_currencies o s).2.trace = s.trace ++
      (if s.currency_list.length = 0
        then [("getCurrencies", JsonValue.arr [])] else []) := by
  unfold get_currencies logReq
  split
  · simp_all
  · simp_all

theorem effCurrencies_idem (o : Oracle) (s : ClientState) :
    effCurrencies o (get_currencies o s).2 = effCurrencies o s := by
  have h := get_currencies_clist o s
  unfold effCurrencies at h ⊢
  by_cases h0 : s.currency_list.length = 0
  · simp only [h0, if_true, if_pos] at h ⊢
    rw [h]
    split <;> rfl
  · simp only [h0, if_false, if_neg, not_false_iff] at h ⊢
    rw [h]
    simp [h0]

theorem effCurrencies_logReq (o : Oracle) (s : ClientState)
    (c : String) (p : JsonValue) :
    effCurrencies o (logReq s c p) = effCurrencies o s := rfl

/-- State evolution by lookups only: the trace is extended, and only with
`getCurrencies` / `getMinAmount` dispatches. -/
def ExtendsWithLookups (s s' : ClientState) : Prop :=
  ∃ l, s'.trace = s.trace ++ l ∧
    ∀ r ∈ l, r.1 = "getCurrencies" ∨ r.1 = "getMinAmount"

theorem extendsWithLookups_refl (s : ClientState) : ExtendsWithLookups s s :=
  ⟨[], by simp, by simp⟩

theorem extendsWithLookups_trans {s s' s'' : ClientState}
    (h1 : ExtendsWithLookups s s') (h2 : ExtendsWithLookups s' s'') :
    ExtendsWithLookups s s'' := by
  obtain ⟨l1, e1, m1⟩ := h1
  obtain ⟨l2, e2, m2⟩ := h2
  refine ⟨l1 ++ l2, by rw [e2, e1, List.append_assoc], ?_⟩
  intro r hr
  rcases List.mem_append.1 hr with h | h
  · exact m1 r h
  · exact m2 r h

theorem extendsWithLookups_get_currencies (o : Oracle) (s : ClientState) :
    ExtendsWithLookups s (get_currencies o s).2 := by
  refine ⟨if s.currency_list.length = 0
    then [("getCurrencies", JsonValue.arr [])] else [], get_currencies_trace o s, ?_⟩
  split <;> simp

theorem extendsWithLookups_get_min_amount (o : Oracle) (s : ClientState)
    (f t : String) :
    ExtendsWithLookups s (get_min_amount o s f t).2 := by
  unfold get_min_amount
  dsimp only
  have h1 := extendsWithLookups_get_currencies o s
  have h2 := extendsWithLookups_get_currencies o (get_currencies o s).2
  have h12 := extendsWithLookups_trans h1 h2
  split
  · split
    · split <;>
        exact extendsWithLookups_trans h12 ⟨[("getMinAmount", _)], rfl, by simp⟩
    · exact h12
  · exact h1

theorem effCurrencies_get_min_amount (o : Oracle) (s : ClientState)
    (f t : String) :
    effCurrencies o (get_min_amount o s f t).2 = effCurrencies o s := by
  unfold get_min_amount
  dsimp only
  have h1 := effCurrencies_idem o s
  have h2 := effCurrencies_idem o (get_currencies o s).2
  split
  · split
    · split <;> simp [effCurrencies_logReq, h2, h1]
    · rw [h2, h1]
  · exact h1

theorem newReqs_eq {s s' : ClientState} (l : List (String × JsonValue))
    (h : s'.trace = s.trace ++ l) : newReqs s s' = l := by
  unfold newReqs
  rw [h, List.drop_left]

theorem newReqs_append {s s' s'' : ClientState}
    (h1 : ∃ a, s'.trace = s.trace ++ a) (h2 : ∃ b, s''.trace = s'.trace ++ b) :
    newReqs s s'' = newReqs s s' ++ newReqs s' s'' := by
  obtain ⟨a, ha⟩ := h1
  obtain ⟨b, hb⟩ := h2
  rw [newReqs_eq a ha, newReqs_eq b hb, newReqs_eq (a ++ b)
    (by rw [hb, ha, List.append_assoc])]

theorem get_currencies_newReqs (o : Oracle) (s : ClientState) :
    newReqs s (get_currencies o s).2 =
      if s.currency_list.length = 0
        then [("getCurrencies", JsonValue.arr [])] else [] :=
  newReqs_eq _ (get_currencies_trace o s)

/-- Positive `get_min_amount` characterization: with both lower-cased
codes in the effective currency list, the result is the remote minimum
parsed and rounded, and exactly one `getMinAmount` request (with the
lower-cased pair) is dispatched. -/
theorem get_min_amount_valid (o : Oracle) (s : ClientState) (f t : String)
    (hf : pyLower f ∈ effCurrencies o s) (ht : pyLower t ∈ effCurrencies o s) :
    (get_min_amount o s f t).1
      = Except.map round8 (pyFloatStr (o.minAmount (pyLower f) (pyLower t))) ∧
    newReqs s (get_min_amount o s f t).2 =
      (if s.currency_list.length = 0
        then [("getCurrencies", JsonValue.arr [])] else []) ++
      [("getMinAmount",
        JsonValue.obj [("from", .str (pyLower f)), ("to", .str (pyLower t))])] := by
  have heff : effCurrencies o s ≠ [] := List.ne_nil_of_mem hf
  unfold get_min_amount
  dsimp only
  rw [get_currencies_fst, if_pos hf, get_currencies_fst, effCurrencies_idem,
    if_pos ht]
  constructor
  · cases h : pyFloatStr (o.minAmount (pyLower f) (pyLower t)) <;>
      simp [h, Except.map]
  · apply newReqs_eq
    have h2 : (get_currencies o (get_currencies o s).2).2.trace
        = (get_currencies o s).2.trace := by
      rw [get_currencies_trace o (get_currencies o s).2, get_currencies_clist]
      rw [if_neg, List.append_nil]
      simpa [List.length_eq_zero] using heff
    cases h : pyFloatStr (o.minAmount (pyLower f) (pyLower t)) <;>
      · dsimp only
        unfold logReq
        dsimp only
        rw [h2, get_currencies_trace o s, List.append_assoc]

/-- Negative `get_min_amount` characterization: if either lower-cased code
is missing from the effective currency list, the call fails with the
invalid-currency `ValueError` and no `getMinAmount` request is
dispatched. -/
theorem get_min_amount_invalid (o : Oracle) (s : ClientState) (f t : String)
    (h : ¬(pyLower f ∈ effCurrencies o s ∧ pyLower t ∈ effCurrencies o s)) :
    (get_min_amount o s f t).1 = .error (.valueError invalidCurrencyMsg) ∧
    ∀ r ∈ newReqs s (get_min_amount o s f t).2, r.1 = "getCurrencies" := by
  unfold get_min_amount
  dsimp only
  by_cases hf : pyLower f ∈ effCurrencies o s
  · have ht : pyLower t ∉ effCurrencies o s := fun ht => h ⟨hf, ht⟩
    rw [get_currencies_fst, if_pos hf, get_currencies_fst, effCurrencies_idem,
      if_neg ht]
    refine ⟨rfl, ?_⟩
    have e2 : (get_currencies o (get_currencies o s).2).2.trace
        = (get_currencies o s).2.trace ++
          (if (get_currencies o s).2.currency_list.length = 0
            then [("getCurrencies", JsonValue.arr [])] else []) :=
      get_currencies_trace o (get_currencies o s).2
    rw [newReqs_eq ((if s.currency_list.length = 0
        then [("getCurrencies", JsonValue.arr [])] else []) ++
      (if (get_currencies o s).2.currency_list.length = 0
        then [("getCurrencies", JsonValue.arr [])] else []))
      (by rw [e2, get_currencies_trace o s, List.append_assoc])]
    intro r hr
    rcases List.mem_append.1 hr with hmem | hmem <;>
      · revert hmem
        split <;> intro hmem <;> simp_all
  · rw [get_currencies_fst, if_neg hf]
    refine ⟨rfl, ?_⟩
    rw [get_currencies_newReqs]
    intro r hr
    revert hr
    split <;> intro hr <;> simp_all

/-- The validation loop only performs lookups (`getCurrencies` /
`getMinAmount` dispatches) and leaves the effective currency list
unchanged, whatever its outcome. -/
theorem validatePairs_state (o : Oracle) (a : ℚ)
    (pairs : List (String × String)) (s : ClientState) :
    ExtendsWithLookups s (validatePairs o a pairs s).2 ∧
    effCurrencies o (validatePairs o a pairs s).2 = effCurrencies o s := by
  induction pairs generalizing s with
  | nil => exact ⟨extendsWithLookups_refl s, rfl⟩
  | cons p rest ih =>
    obtain ⟨f, t⟩ := p
    unfold validatePairs
    dsimp only
    have hgc : ExtendsWithLookups s (get_currencies o (get_currencies o s).2).2 :=
      extendsWithLookups_trans (extendsWithLookups_get_currencies o s)
        (extendsWithLookups_get_currencies o (get_currencies o s).2)
    have hgce : effCurrencies o (get_currencies o (get_currencies o s).2).2
        = effCurrencies o s := by
      rw [effCurrencies_idem, effCurrencies_idem]
    split
    · rcases hgm : get_min_amount o (get_currencies o (get_currencies o s).2).2 f t
        with ⟨res, s3⟩
      have hma : ExtendsWithLookups s s3 := by
        have := extendsWithLookups_get_min_amount o
          (get_currencies o (get_currencies o s).2).2 f t
        rw [hgm] at this
        exact extendsWithLookups_trans hgc this
      have hme : effCurrencies o s3 = effCurrencies o s := by
        have := effCurrencies_get_min_amount o
          (get_currencies o (get_currencies o s).2).2 f t
        rw [hgm] at this
        rw [this, hgce]
      cases res with
      | ok m =>
        dsimp only
        split
        · exact ⟨hma, hme⟩
        · obtain ⟨ih1, ih2⟩ := ih s3
          exact ⟨extendsWithLookups_trans hma ih1, by rw [ih2, hme]⟩
      | error e => exact ⟨hma, hme⟩
    · exact ⟨hgc, hgce⟩

/-- If every zipped pair consists of (already lower-case) valid codes
whose remote minimum parses, the validation loop fails with the
below-minimum `ValueError` of the first pair whose rounded minimum
exceeds the amount. -/
theorem validatePairs_below (o : Oracle) (a : ℚ) (μ : String → String → ℚ)
    (pairs : List (String × String)) (s : ClientState)
    (hlower : ∀ p ∈ pairs, pyLower p.1 = p.1 ∧ pyLower p.2 = p.2)
    (hmem : ∀ p ∈ pairs, p.1 ∈ effCurrencies o s ∧ p.2 ∈ effCurrencies o s)
    (hparse : ∀ p ∈ pairs, pyFloatStr (o.minAmount p.1 p.2) = .ok (μ p.1 p.2))
    (p : String × String)
    (hfirst : pairs.find? (fun x => a < round8 (μ x.1 x.2)) = some p) :
    (validatePairs o a pairs s).1
      = .error (.valueError (minMsg (round8 (μ p.1 p.2)) p.1)) := by
  induction pairs generalizing s with
  | nil => simp at hfirst
  | cons hd rest ih =>
    obtain ⟨f, t⟩ := hd
    have hmemh := hmem (f, t) (List.mem_cons_self _ _)
    have hlowh := hlower (f, t) (List.mem_cons_self _ _)
    have hparseh := hparse (f, t) (List.mem_cons_self _ _)
    unfold validatePairs
    dsimp only
    rw [get_currencies_fst, get_currencies_fst, effCurrencies_idem,
      if_pos ⟨hmemh.1, hmemh.2⟩]
    have hgce : effCurrencies o (get_currencies o (get_currencies o s).2).2
        = effCurrencies o s := by
      rw [effCurrencies_idem, effCurrencies_idem]
    rcases hgm : get_min_amount o (get_currencies o (get_currencies o s).2).2 f t
      with ⟨res, s3⟩
    have hres : res = .ok (round8 (μ f t)) := by
      have hv := (get_min_amount_valid o
        (get_currencies o (get_currencies o s).2).2 f t
        (by rw [hlowh.1, hgce]; exact hmemh.1)
        (by rw [hlowh.2, hgce]; exact hmemh.2)).1
      rw [hgm] at hv
      dsimp at hv
      rw [hlowh.1, hlowh.2, hparseh] at hv
      exact hv
    subst hres
    dsimp only
    have hme : effCurrencies o s3 = effCurrencies o s := by
      have := effCurrencies_get_min_amount o
        (get_currencies o (get_currencies o s).2).2 f t
      rw [hgm] at this
      rw [this, hgce]
    by_cases hlt : a < round8 (μ f t)
    · rw [if_pos hlt]
      have : p = (f, t) := by
        rw [List.find?_cons_of_pos _ (by simpa using hlt)] at hfirst
        exact (Option.some_inj.1 hfirst).symm
      rw [this]
    · rw [if_neg hlt]
      rw [List.find?_cons_of_neg _ (by simpa using hlt)] at hfirst
      exact ih s3
        (fun q hq => hlower q (List.mem_cons_of_mem _ hq))
        (fun q hq => by
          have := hmem q (List.mem_cons_of_mem _ hq)
          rw [← hme] at this
          exact this)
        (fun q hq => hparse q (List.mem_cons_of_mem _ hq))
        hfirst

/-! ## Claim theorems -/

section ClaimTheorems

/- Batteries marks the field operations of `ℚ` `@[irreducible]`; allow
unfolding locally so that witnesses evaluate on concrete rationals. -/
attribute [local semireducible] Rat.mul Rat.inv Rat.add Rat.sub

/-- C6: for any currency codes `f`, `t` and amount `a`,
`get_exchange_amount` on the bare strings `f`, `t` and on the one-element
lists `[f]`, `[t]` produces the same result and the same dispatched
requests: a bare string is promoted to a one-element sequence and
lower-cased element-wise before any other processing. -/
theorem exchange_bare_string_promotion (o : Oracle) (s : ClientState)
    (f t : String) (a : ℚ) :
    get_exchange_amount o s (.str f) (.str t) a
      = get_exchange_amount o s (.list [f]) (.list [t]) a := rfl

/-- C7: the signature is a pure function of the secret and the serialized
request bytes: equal serialized bytes give equal signatures (and equal
bodies), and for every request the signature input is exactly the body
that is sent — `sign = H secret body` with `body = serializeRequest`, no
reserialization between signing and sending. -/
theorem signing_pure_over_sent_bytes (H : String → String → String)
    (secret key : String) (c₁ c₂ : String) (p₁ p₂ : Option JsonValue)
    (hbytes : serializeRequest c₁ p₁ = serializeRequest c₂ p₂) :
    (signedRequest H secret key c₁ p₁).sign
      = (signedRequest H secret key c₂ p₂).sign ∧
    (signedRequest H secret key c₁ p₁).body
      = (signedRequest H secret key c₂ p₂).body ∧
    (∀ (c : String) (p : Option JsonValue),
      (signedRequest H secret key c p).body = serializeRequest c p ∧
      (signedRequest H secret key c p).sign
        = H secret (signedRequest H secret key c p).body) := by
  refine ⟨?_, hbytes, fun c p => ⟨rfl, rfl⟩⟩
  show H secret (serializeRequest c₁ p₁) = H secret (serializeRequest c₂ p₂)
  rw [hbytes]

/-- Witness for C7 at a concrete hash, secret and envelope. -/
theorem signing_pure_over_sent_bytes_witness :
    (signedRequest (fun sec d => sec ++ "|" ++ d) "s3cr3t" "apikey"
        "getCurrencies" none).sign
      = (signedRequest (fun sec d => sec ++ "|" ++ d) "s3cr3t" "apikey"
        "getCurrencies" none).sign ∧
    (signedRequest (fun sec d => sec ++ "|" ++ d) "s3cr3t" "apikey"
        "getCurrencies" none).body
      = (signedRequest (fun sec d => sec ++ "|" ++ d) "s3cr3t" "apikey"
        "getCurrencies" none).body ∧
    (∀ (c : String) (p : Option JsonValue),
      (signedRequest (fun sec d => sec ++ "|" ++ d) "s3cr3t" "apikey" c p).body
        = serializeRequest c p ∧
      (signedRequest (fun sec d => sec ++ "|" ++ d) "s3cr3t" "apikey" c p).sign
        = (fun sec d => sec ++ "|" ++ d) "s3cr3t"
          (signedRequest (fun sec d => sec ++ "|" ++ d) "s3cr3t" "apikey" c p).body) :=
  signing_pure_over_sent_bytes (fun sec d => sec ++ "|" ++ d) "s3cr3t" "apikey"
    "getCurrencies" "getCurrencies" none none rfl

/-- C1 (code bug): calling `create_transaction` with the refund arguments
left at their `None` defaults raises `TypeError` locally — the tuple in
`all((refund_address is not None, isinstance(refund_address, str), len(refund_address) > 0))`
is built eagerly, so `len(None)` is evaluated — and nothing is
dispatched, instead of omitting the refund keys and proceeding. -/
theorem create_transaction_refund_defaults_raise :
    (create_transaction demoOracle emptyState "btc" "eth" "addr1" 1
        none none none).1
      = .error (.typeError "object of type NoneType has no len()") ∧
    newReqs emptyState
      (create_transaction demoOracle emptyState "btc" "eth" "addr1" 1
        none none none).2 = [] :=
  ⟨rfl, rfl⟩

/-- C9 (code bug): `_headers` is a class attribute mutated in place by
`__init__`, so constructing a second client rebinds every instance's
`api-key`; the first client constructed with `"key1"` would send
`"key2"`. The currency cache, by contrast, is populated through an
attribute assignment that shadows the class attribute, so populating one
instance's cache leaves the other's untouched. -/
theorem class_attr_headers_shared :
    apiKeyOf (ChangellyPy_init (ChangellyPy_init initialClassAttrs
        "key1" "secret1").2 "key2" "secret2").2
      (ChangellyPy_init initialClassAttrs "key1" "secret1").1 = some "key2" ∧
    ("key2" : String) ≠ "key1" ∧
    currencyListOf (ChangellyPy_init (ChangellyPy_init initialClassAttrs
        "key1" "secret1").2 "key2" "secret2").2
      (populateCache (ChangellyPy_init (ChangellyPy_init initialClassAttrs
        "key1" "secret1").2 "key2" "secret2").1 ["btc"]) = ["btc"] ∧
    currencyListOf (ChangellyPy_init (ChangellyPy_init initialClassAttrs
        "key1" "secret1").2 "key2" "secret2").2
      (ChangellyPy_init initialClassAttrs "key1" "secret1").1 = [] :=
  ⟨rfl, by decide, rfl, rfl⟩

/-- C5: whenever a `create_transaction` call with `extra_id = None`
dispatches (i.e. the refund arguments are provided, in any length), the
`createTransaction` params carry the key `extraId` bound to the
four-character string `"null"`. -/
theorem create_transaction_extraId_null_string (o : Oracle) (s : ClientState)
    (f t addr : String) (a : ℚ) (ra rei : String) :
    ∃ params,
      newReqs s (create_transaction o s f t addr a none
          (some ra) (some rei)).2
        = [("createTransaction", .obj params)] ∧
      jsonLookup params "extraId" = some (.str "null") := by
  unfold create_transaction
  dsimp only
  by_cases h1 : ra.length > 0 <;> by_cases h2 : rei.length > 0 <;>
    simp only [h1, h2, if_true, if_false] <;>
    exact ⟨_, newReqs_eq _ rfl, rfl⟩

/-- A non-empty cache short-circuits `get_currencies` entirely. -/
theorem get_currencies_cached (o : Oracle) (s : ClientState)
    (h : s.currency_list ≠ []) :
    get_currencies o s = (s.currency_list, s) := by
  unfold get_currencies
  rw [if_neg (by simpa [List.length_eq_zero] using h)]

/-- C8: `get_currencies` dispatches `getCurrencies` exactly when the
cached list is empty, and once a call has returned a non-empty list every
further call returns that same list and leaves the state (cache and
trace) untouched — no dispatch, no refresh. -/
theorem get_currencies_cache_idempotent (o : Oracle) (s : ClientState) :
    (newReqs s (get_currencies o s).2
      = if s.currency_list.length = 0
        then [("getCurrencies", JsonValue.arr [])] else []) ∧
    ((get_currencies o s).1 ≠ [] →
      get_currencies o (get_currencies o s).2
        = ((get_currencies o s).1, (get_currencies o s).2)) := by
  refine ⟨get_currencies_newReqs o s, fun hne => ?_⟩
  have hc := get_currencies_clist o s
  have hf := get_currencies_fst o s
  rw [get_currencies_cached o (get_currencies o s).2 (by rw [hc, ← hf]; exact hne),
    hc, ← hf]

/-- Witness for C8: after the first (populating) call on a fresh client,
the second call returns the same list with no state change. -/
theorem get_currencies_cache_idempotent_witness :
    get_currencies demoOracle (get_currencies demoOracle emptyState).2
      = ((get_currencies demoOracle emptyState).1,
         (get_currencies demoOracle emptyState).2) :=
  (get_currencies_cache_idempotent demoOracle emptyState).2 (by decide)

/-- C4: `get_min_amount` lower-cases both codes; when both lower-cased
codes are in the effective currency list it dispatches exactly one
`getMinAmount` request carrying `{from, to}` (lower-cased) and returns
the remote result parsed as a float and rounded to 8 places; otherwise it
fails with the invalid-currency `ValueError` and dispatches no
`getMinAmount` request. -/
theorem get_min_amount_contract (o : Oracle) (s : ClientState)
    (f t : String) :
    (pyLower f ∈ effCurrencies o s ∧ pyLower t ∈ effCurrencies o s →
      (get_min_amount o s f t).1
        = Except.map round8 (pyFloatStr (o.minAmount (pyLower f) (pyLower t))) ∧
      (newReqs s (get_min_amount o s f t).2).filter
          (fun r => r.1 = "getMinAmount")
        = [("getMinAmount", JsonValue.obj
            [("from", .str (pyLower f)), ("to", .str (pyLower t))])]) ∧
    (¬(pyLower f ∈ effCurrencies o s ∧ pyLower t ∈ effCurrencies o s) →
      (get_min_amount o s f t).1 = .error (.valueError invalidCurrencyMsg) ∧
      (newReqs s (get_min_amount o s f t).2).filter
          (fun r => r.1 = "getMinAmount") = []) := by
  constructor
  · rintro ⟨hf, ht⟩
    obtain ⟨h1, h2⟩ := get_min_amount_valid o s f t hf ht
    refine ⟨h1, ?_⟩
    rw [h2, List.filter_append]
    split <;> rfl
  · intro h
    obtain ⟨h1, h2⟩ := get_min_amount_invalid o s f t h
    refine ⟨h1, List.filter_eq_nil_iff.2 ?_⟩
    intro r hr
    rw [h2 r hr]
    decide

/-- Witness for C4: valid codes `"BTC"`, `"ETH"` against the demo
service. -/
theorem get_min_amount_contract_witness :
    (get_min_amount demoOracle emptyState "BTC" "ETH").1
      = Except.map round8
          (pyFloatStr (demoOracle.minAmount (pyLower "BTC") (pyLower "ETH"))) ∧
    (newReqs emptyState
        (get_min_amount demoOracle emptyState "BTC" "ETH").2).filter
        (fun r => r.1 = "getMinAmount")
      = [("getMinAmount", JsonValue.obj
          [("from", .str (pyLower "BTC")), ("to", .str (pyLower "ETH"))])] :=
  (get_min_amount_contract demoOracle emptyState "BTC" "ETH").1
    ⟨by decide, by decide⟩

/-- C3: when every zipped pair of normalized codes is valid and some
pair's rounded remote minimum exceeds the coerced amount,
`get_exchange_amount` fails with the below-minimum `ValueError` naming
that (first such) pair's computed minimum and its upper-cased from-code,
and no `getExchangeAmount` request is ever dispatched. -/
theorem exchange_below_min_blocks_dispatch (o : Oracle) (s : ClientState)
    (from_c to_c : StrOrList) (a : ℚ) (μ : String → String → ℚ)
    (hmem : ∀ p ∈ (normalizeArg from_c).zip (normalizeArg to_c),
      p.1 ∈ effCurrencies o s ∧ p.2 ∈ effCurrencies o s)
    (hparse : ∀ p ∈ (normalizeArg from_c).zip (normalizeArg to_c),
      pyFloatStr (o.minAmount p.1 p.2) = .ok (μ p.1 p.2))
    (p : String × String)
    (hfirst : ((normalizeArg from_c).zip (normalizeArg to_c)).find?
      (fun x => a < round8 (μ x.1 x.2)) = some p) :
    (get_exchange_amount o s from_c to_c a).1
      = .error (.valueError (minMsg (round8 (μ p.1 p.2)) p.1)) ∧
    ∀ r ∈ newReqs s (get_exchange_amount o s from_c to_c a).2,
      r.1 ≠ "getExchangeAmount" := by
  have hlower : ∀ q ∈ (normalizeArg from_c).zip (normalizeArg to_c),
      pyLower q.1 = q.1 ∧ pyLower q.2 = q.2 := by
    intro q hq
    obtain ⟨h1, h2⟩ := List.of_mem_zip hq
    exact ⟨normalizeArg_lower from_c q.1 h1, normalizeArg_lower to_c q.2 h2⟩
  have hvp := validatePairs_below o a μ _ s hlower hmem hparse p hfirst
  have hst := (validatePairs_state o a
    ((normalizeArg from_c).zip (normalizeArg to_c)) s).1
  unfold get_exchange_amount
  dsimp only
  rcases hv : validatePairs o a
      ((normalizeArg from_c).zip (normalizeArg to_c)) s with ⟨res, s1⟩
  rw [hv] at hvp hst
  dsimp at hvp
  subst hvp
  dsimp only
  obtain ⟨l, hl, hm⟩ := hst
  rw [newReqs_eq l hl]
  refine ⟨rfl, ?_⟩
  intro r hr
  rcases hm r hr with h | h <;> rw [h] <;> decide

/-- Witness for C3: amount `1/10000` below the demo minimum `0.001` for
the single pair `("btc", "eth")`. -/
theorem exchange_below_min_blocks_dispatch_witness :
    (get_exchange_amount demoOracle emptyState (.str "BTC") (.str "ETH")
        (1/10000)).1
      = .error (.valueError (minMsg (round8 ((fun _ _ => (1 : ℚ)/1000) "btc" "eth")) "btc")) :=
  (exchange_below_min_blocks_dispatch demoOracle emptyState
    (.str "BTC") (.str "ETH") (1/10000) (fun _ _ => (1 : ℚ)/1000)
    (by decide)
    (by
      intro p hp
      simp only [normalizeArg, List.zip_cons_cons, List.zip_nil_right,
        List.mem_singleton] at hp
      subst hp
      rfl)
    ("btc", "eth") (by decide)).1

/-- C2 counterexample: with `from = ["btc", "eth"]`, `to = ["eth"]` and a
valid amount, the call does end in the shape-mismatch `IndexError`, but
only after dispatching `getCurrencies` and `getMinAmount` for the zipped
prefix — not "before any network call". -/
theorem exchange_shape_mismatch_dispatches_first :
    (get_exchange_amount demoOracle emptyState
        (.list ["btc", "eth"]) (.list ["eth"]) 1).1
      = .error (.indexError shapeMsg) ∧
    (newReqs emptyState (get_exchange_amount demoOracle emptyState
        (.list ["btc", "eth"]) (.list ["eth"]) 1).2).map Prod.fst
      = ["getCurrencies", "getMinAmount"] :=
  ⟨rfl, rfl⟩

/-- C2 amended: when the normalized sequences differ in length the call
always fails before the `getExchangeAmount` dispatch — with the
shape-mismatch `IndexError` whenever per-pair validation of the zipped
prefix succeeds — but the length check runs only after the validation
loop, which may dispatch `getCurrencies` and `getMinAmount` requests. -/
theorem exchange_shape_mismatch_after_validation (o : Oracle)
    (s : ClientState) (from_c to_c : StrOrList) (a : ℚ)
    (hne : (normalizeArg from_c).length ≠ (normalizeArg to_c).length) :
    (∃ e, (get_exchange_amount o s from_c to_c a).1 = .error e) ∧
    (∀ r ∈ newReqs s (get_exchange_amount o s from_c to_c a).2,
      r.1 = "getCurrencies" ∨ r.1 = "getMinAmount") ∧
    (∀ s1 : ClientState,
      validatePairs o a ((normalizeArg from_c).zip (normalizeArg to_c)) s
        = (.ok (), s1) →
      (get_exchange_amount o s from_c to_c a).1
        = .error (.indexError shapeMsg)) := by
  have hst := (validatePairs_state o a
    ((normalizeArg from_c).zip (normalizeArg to_c)) s).1
  unfold get_exchange_amount
  dsimp only
  rcases hv : validatePairs o a
      ((normalizeArg from_c).zip (normalizeArg to_c)) s with ⟨res, s1⟩
  rw [hv] at hst
  obtain ⟨l, hl, hm⟩ := hst
  cases res with
  | error e =>
    dsimp only
    refine ⟨⟨e, rfl⟩, ?_, ?_⟩
    · rw [newReqs_eq l hl]
      exact hm
    · intro s2 h2
      simp at h2
  | ok u =>
    dsimp only
    rw [if_pos hne]
    refine ⟨⟨.indexError shapeMsg, rfl⟩, ?_, fun s2 _ => rfl⟩
    rw [newReqs_eq l hl]
    exact hm

/-- Witness for the amended C2: the concrete mismatched call fails with
the shape-mismatch `IndexError`. -/
theorem exchange_shape_mismatch_after_validation_witness :
    (get_exchange_amount demoOracle emptyState
        (.list ["btc", "eth"]) (.list ["eth"]) 1).1
      = .error (.indexError shapeMsg) :=
  (exchange_shape_mismatch_after_validation demoOracle emptyState
      (.list ["btc", "eth"]) (.list ["eth"]) 1 (by decide)).2.2
    (validatePairs demoOracle 1
      ((normalizeArg (.list ["btc", "eth"])).zip
        (normalizeArg (.list ["eth"]))) emptyState).2
    rfl

/-- C10: `elements_count = len(result)` is computed before the
`isinstance(result, str)` check, so when the decoded `result` is `None`
or a bare number the call raises `TypeError` locally even though the
`getExchangeAmount` request was dispatched. -/
theorem exchange_len_taken_before_scalar_check (o : Oracle)
    (s : ClientState) (from_c to_c : StrOrList) (a : ℚ) (s1 : ClientState)
    (hvp : validatePairs o a
      ((normalizeArg from_c).zip (normalizeArg to_c)) s = (.ok (), s1))
    (hlen : (normalizeArg from_c).length = (normalizeArg to_c).length)
    (hscalar : o.exchangeResult
        (exchangeParams (normalizeArg from_c) (normalizeArg to_c) a)
          = .null ∨
      ∃ q, o.exchangeResult
        (exchangeParams (normalizeArg from_c) (normalizeArg to_c) a)
          = .num q) :
    (∃ m, (get_exchange_amount o s from_c to_c a).1
      = .error (.typeError m)) ∧
    ("getExchangeAmount",
        exchangeParams (normalizeArg from_c) (normalizeArg to_c) a)
      ∈ newReqs s (get_exchange_amount o s from_c to_c a).2 := by
  have hst := (validatePairs_state o a
    ((normalizeArg from_c).zip (normalizeArg to_c)) s).1
  rw [hvp] at hst
  obtain ⟨l, hl, _⟩ := hst
  unfold get_exchange_amount
  dsimp only
  rw [hvp]
  dsimp only
  rw [if_neg (not_not_intro hlen)]
  rcases hscalar with h | ⟨q, h⟩ <;>
    rw [h] <;>
    dsimp only [pyLen] <;>
    refine ⟨⟨_, rfl⟩, ?_⟩ <;>
    · rw [newReqs_eq (l ++ [("getExchangeAmount",
          exchangeParams (normalizeArg from_c) (normalizeArg to_c) a)]) (by
        show (logReq s1 _ _).trace = _
        unfold logReq
        dsimp only
        rw [hl, List.append_assoc])]
      exact List.mem_append_right _ (List.mem_singleton.2 rfl)

/-- Witness for C10: the demo service answering `null` makes the call
fail after the dispatch. -/
theorem exchange_len_taken_before_scalar_check_witness :
    ("getExchangeAmount", exchangeParams
        (normalizeArg (.str "btc")) (normalizeArg (.str "eth")) 1)
      ∈ newReqs emptyState
        (get_exchange_amount demoOracleNull emptyState
          (.str "btc") (.str "eth") 1).2 :=
  (exchange_len_taken_before_scalar_check demoOracleNull emptyState
      (.str "btc") (.str "eth") 1
      (validatePairs demoOracleNull 1
        ((normalizeArg (.str "btc")).zip (normalizeArg (.str "eth")))
        emptyState).2
      rfl rfl (Or.inl rfl)).2

end ClaimTheorems
